import Mathlib

/-!
Verification of the usdc-transfer repository: a shallow embedding of the
attestation polling loop (src/server.js, `pollAttestation`) and of the
faucet claim dispatcher (src/faucet-automation.js and src/unnamed/part_000:
`claimUSDC`, `processChain`, `runFaucet`), together with theorems settling
the specification claims about them.

Conventions of the embedding:
- A successful HTTP body is a record of the optional `status` and
  `attestation` fields, both modelled as optional strings (the IRIS sandbox
  returns the attestation payload as a hex string).
- JavaScript truthiness of an optional string field: absent and the empty
  string are falsy, every other string is truthy.
- One poll attempt is driven by a `FetchResult`: the fetch threw (network
  error, or `res.json()` threw on a malformed body), the response was
  non-2xx, or a parsed body was obtained.
- The unbounded `while (true)` loop is run with explicit fuel; theorems
  quantify over the fuel. `checkTime i` is the value of `Date.now() - start`
  in milliseconds at the timeout check of attempt `i`.
- Thrown JavaScript exceptions are modelled with `Except String`; the text
  of engine-generated TypeError messages is abbreviated (quotes omitted).
-/

namespace UsdcTransfer

/-- Parsed JSON body of a successful attestation response:
`{status?, attestation?}` (src/server.js line 38). -/
structure PollResponse where
  status : Option String
  attestation : Option String
deriving DecidableEq

/-- Outcome of one `fetch` of the attestation endpoint inside the poll loop
(src/server.js lines 30-38): the fetch or body parse threw, the response was
not ok, or a body was parsed. -/
inductive FetchResult where
  | netError
  | httpError (st : Nat)
  | ok (body : PollResponse)
deriving DecidableEq

/-- JavaScript truthiness of an optional string field: `undefined` and `""`
are falsy, all other strings truthy. -/
def jsTruthy : Option String → Bool
  | none => false
  | some s => !(s == "")

/-- The per-attempt decision of `pollAttestation` (src/server.js lines
32-61): `some j` when this attempt `return json`s, `none` when the loop
falls through to the timeout check. Mirrors the source: the first `if`
returns when `attestation` is truthy and differs from the exact strings
"PENDING" and "pending"; otherwise the `status === "complete"` branch
returns whenever `attestation` is truthy. Errors and non-ok responses never
return. -/
def attemptReturns : FetchResult → Option PollResponse
  | FetchResult.netError => none
  | FetchResult.httpError _ => none
  | FetchResult.ok j =>
    if jsTruthy j.attestation = true ∧ j.attestation ≠ some "PENDING" ∧ j.attestation ≠ some "pending" then
      some j
    else if j.status = some "pending_confirmations" then
      none
    else if j.status = some "complete" then
      if jsTruthy j.attestation = true then some j else none
    else
      none

/-- `const IRIS = "https://iris-api-sandbox.circle.com/v1/attestations"`
(src/server.js line 11). -/
def IRIS : String := "https://iris-api-sandbox.circle.com/v1/attestations"

/-- `const timeout = 180000` — the 3 minute wall-clock deadline in
milliseconds (src/server.js line 21). -/
def timeoutMs : Nat := 180000

/-- The message of the `Error` thrown on timeout (src/server.js lines
70-73). Note it is built from the identifier alone: the elapsed time is not
part of it. -/
def timeoutMessage (hash : String) : String :=
  "Attestation timeout. The transaction may need more confirmations. " ++
  ("Try checking " ++ IRIS ++ "/" ++ hash ++ " directly.")

/-- Terminal outcome of one `pollAttestation` invocation: the returned
payload, or the thrown timeout error. -/
inductive PollResult where
  | success (payload : PollResponse)
  | timeout (msg : String)
deriving DecidableEq

/-- The `while (true)` loop of `pollAttestation` (src/server.js lines
26-78), run with explicit fuel. `f i` is the fetch outcome of attempt `i`;
`t i` is `Date.now() - start` in ms at the timeout check of attempt `i`.
Each attempt first runs the try/catch body (which may `return json`), then
checks `Date.now() - start > timeout` and throws, else sleeps and loops.
`none` means the loop is still running after `fuel` attempts. -/
def pollAttestationRun (hash : String) (f : Nat → FetchResult) (t : Nat → Nat) :
    Nat → Nat → Option PollResult
  | 0, _ => none
  | fuel+1, i =>
    match attemptReturns (f i) with
    | some j => some (PollResult.success j)
    | none =>
      if timeoutMs < t i then some (PollResult.timeout (timeoutMessage hash))
      else pollAttestationRun hash f t fuel (i+1)

/-- A chain profile from the static `CHAINS` table (src/unnamed/part_000
lines 11-27, identical in src/faucet-automation.js lines 13-29). -/
structure ChainConfig where
  name : String
  chainId : String
  token : String
deriving DecidableEq

/-- The `CHAINS` lookup: JavaScript property access returns `undefined`
(here `none`) for an unknown key. -/
def CHAINS : String → Option ChainConfig
  | "avalanche_fuji" => some ⟨"Avalanche Fuji Testnet", "43113", "USDC"⟩
  | "ethereum_sepolia" => some ⟨"Ethereum Sepolia Testnet", "11155111", "USDC"⟩
  | "base_sepolia" => some ⟨"Base Sepolia Testnet", "84532", "USDC"⟩
  | _ => none

/-- `Object.keys(CHAINS)` in insertion order (the order `runFaucet` iterates
the chains in). -/
def chainKeys : List String := ["avalanche_fuji", "ethereum_sepolia", "base_sepolia"]

/-- The value returned by `claimUSDC`: `success` plus the optional `message`
of the success path or `error` of the failure paths. -/
structure ClaimOutcome where
  success : Bool
  message : Option String
  error : Option String
deriving DecidableEq

/-- The JSON body of the one outbound `POST` to the faucet
(src/unnamed/part_000 lines 72-76). -/
structure FaucetRequest where
  address : String
  chainId : String
  token : String
deriving DecidableEq

/-- Outcome of the `fetch` + `response.json()` pair inside `claimUSDC`:
either one of them threw (`netError`, covering network failures and
malformed bodies), or a body was parsed from a response with the given
`response.ok` flag. -/
inductive FaucetFetchResult where
  | netError (msg : String)
  | response (ok : Bool) (message : Option String) (error : Option String)
deriving DecidableEq

/-- The message of the TypeError thrown when `chainConfig` is `undefined`
and `chainConfig.name` is read (quotes around the property name omitted). -/
def chainLookupTypeError : String :=
  "Cannot read properties of undefined (reading name)"

/-- The `try` block of `claimUSDC` (src/unnamed/part_000 lines 64-89,
identical logic in src/faucet-automation.js lines 83-108). `CHAINS[chain]`
is evaluated before the `try`, but its first dereference
(`chainConfig.name` in the opening log line) happens inside the `try`, so
an unknown chain key throws inside the protected region. A thrown
exception is `Except.error` with the exception message. -/
def claimUSDCBody (chain addr : String) (fr : FaucetFetchResult) :
    Except String ClaimOutcome :=
  match CHAINS chain with
  | none => Except.error chainLookupTypeError
  | some _cfg =>
    match fr with
    | FaucetFetchResult.netError m => Except.error m
    | FaucetFetchResult.response ok msg err =>
      if ok then Except.ok ⟨true, msg, none⟩
      else Except.ok ⟨false, none, err⟩

/-- The `catch` block of `claimUSDC` (src/unnamed/part_000 lines 91-95,
identically src/faucet-automation.js lines 110-114), applied to the caught
exception's message `m`. The handler's own log template interpolates
`chainConfig.name`, so when the chain key is unknown the handler throws a
second TypeError of its own before reaching its `return`; only for a
configured chain does it return the `{success: false, error: message}`
outcome. -/
def claimUSDCCatch (chain : String) (m : String) : Except String ClaimOutcome :=
  match CHAINS chain with
  | none => Except.error chainLookupTypeError
  | some _cfg => Except.ok ⟨false, none, some m⟩

/-- `claimUSDC` at its public interface, with the exception channel kept
explicit (`Except.error` means an exception escapes the function and the
promise rejects): the `try` block's value when it does not throw, otherwise
the `catch` block's behaviour — which itself throws when the chain key is
unknown. -/
def claimUSDC (chain addr : String) (fr : FaucetFetchResult) :
    Except String ClaimOutcome :=
  match claimUSDCBody chain addr fr with
  | Except.ok o => Except.ok o
  | Except.error m => claimUSDCCatch chain m

/-- The outcome record a `claimUSDC` call produces for its caller when it
resolves. For a configured chain `claimUSDC` always resolves, and this is
exactly its value. For an unknown chain key `claimUSDC` rejects instead
(see `claimUSDCCatch`); the error branch below is a total-function
placeholder for that case, which the program never consults — `runFaucet`
invokes `processChain` only on the configured `chainKeys`, and every
theorem below that consults this definition restricts to configured
chains. -/
def claimUSDCOutcome (chain addr : String) (fr : FaucetFetchResult) : ClaimOutcome :=
  match claimUSDC chain addr fr with
  | Except.ok o => o
  | Except.error m => ⟨false, none, some m⟩

/-- The outbound POST requests one `claimUSDC` call issues: exactly the one
request built from the wallet address and chain profile when the chain is
known; none when the `chainConfig.name` dereference throws before `fetch`
is reached. -/
def claimUSDCRequests (chain addr : String) : List FaucetRequest :=
  match CHAINS chain with
  | none => []
  | some cfg => [⟨addr, cfg.chainId, cfg.token⟩]

/-- `processChain` (src/unnamed/part_000 lines 99-124): with a missing or
empty wallet list it returns early (JS `return;`, i.e. `undefined`, here
`none`); otherwise it iterates the wallets in order, collecting
`{wallet, ...claimUSDC result}` records, and returns them. `fr i` is the
fetch outcome of the claim for the i-th wallet. -/
def processChain (fr : Nat → FaucetFetchResult) (chain : String)
    (wallets : Option (List String)) : Option (List (String × ClaimOutcome)) :=
  match wallets with
  | none => none
  | some ws =>
    if ws.length = 0 then none
    else some (ws.enum.map (fun p => (p.2, claimUSDCOutcome chain p.2 (fr p.1))))

/-- The outbound POST requests one `processChain` call issues: none on the
skip path, else the concatenation of each wallet's `claimUSDC` requests, in
list order. -/
def processChainRequests (chain : String) (wallets : Option (List String)) :
    List FaucetRequest :=
  match wallets with
  | none => []
  | some ws =>
    if ws.length = 0 then []
    else ws.flatMap (fun w => claimUSDCRequests chain w)

/-- The per-chain summary `processChain` computes and logs (lines 117-121):
`(successful, failed)` counts over the collected results. On the skip path
no summary is computed. -/
def processChainSummary (fr : Nat → FaucetFetchResult) (chain : String)
    (wallets : Option (List String)) : Option (Nat × Nat) :=
  (processChain fr chain wallets).map
    (fun rs => (rs.countP (fun p => p.2.success), rs.countP (fun p => !p.2.success)))

/-- The message of the TypeError thrown by `chainResults.filter` when
`chainResults` is `undefined` (quotes around the property name omitted). -/
def filterOnUndefinedTypeError : String :=
  "Cannot read properties of undefined (reading filter)"

/-- How one `runFaucet` cycle of src/unnamed/part_000 ends: it either runs
to completion with the final success/failure totals, or `process.exit`s
with a code after the `catch` block logged the fatal error message. -/
inductive RunResult where
  | completed (totalSuccess totalFailed : Nat)
  | exited (code : Nat) (msg : String)
deriving DecidableEq

/-- `runFaucet` of src/unnamed/part_000 (lines 127-164). `loadResult` is
the outcome of `await loadWallets()`; a load exception reaches the `catch`,
which logs and calls `process.exit(1)`. On a successful load every chain in
`chainKeys` is processed and its `processChain` return value stored in
`allResults`; the final-summary loop then calls `.filter` on each stored
value, which throws a TypeError when a skipped chain stored `undefined` —
that TypeError is caught by the same `catch` and also exits with code 1. -/
def runFaucet_part000 (fr : String → Nat → FaucetFetchResult)
    (loadResult : Except String (String → Option (List String))) : RunResult :=
  match loadResult with
  | Except.error m => RunResult.exited 1 m
  | Except.ok wallets =>
    let allResults := chainKeys.map (fun c => processChain (fr c) c (wallets c))
    if allResults.all Option.isSome then
      let rss := allResults.filterMap id
      RunResult.completed
        ((rss.map (fun rs => rs.countP (fun p => p.2.success))).sum)
        ((rss.map (fun rs => rs.countP (fun p => !p.2.success))).sum)
    else RunResult.exited 1 filterOnUndefinedTypeError

/-- The outbound POST requests of one src/unnamed/part_000 `runFaucet`
cycle: none when loading threw (the `catch` is reached before any chain is
processed); otherwise every chain's requests in configured chain order.
(The final-summary TypeError, if any, fires after all chains were
processed, so it does not reduce the requests issued.) -/
def runFaucetRequests_part000
    (loadResult : Except String (String → Option (List String))) : List FaucetRequest :=
  match loadResult with
  | Except.error _ => []
  | Except.ok wallets => chainKeys.flatMap (fun c => processChainRequests c (wallets c))

/-- Observable behaviour of one `runFaucet` cycle of
src/faucet-automation.js (lines 144-169): the requests issued, and the
fatal-error message logged by the `catch` block if it fired. That variant
has no final-summary loop and never calls `process.exit` from `runFaucet`. -/
structure RunA where
  requests : List FaucetRequest
  fatalLogged : Option String
deriving DecidableEq

/-- `runFaucet` of src/faucet-automation.js, with the exception channel
kept explicit: `Except.error` would mean an exception escapes `runFaucet`
to its caller. The `catch` block only logs, and the code after it
(duration report, next-run scheduling) runs unconditionally, so the
function always resolves normally. -/
def runFaucetA (fr : String → Nat → FaucetFetchResult)
    (loadResult : Except String (String → Option (List String))) : Except String RunA :=
  match loadResult with
  | Except.error m => Except.ok ⟨[], some m⟩
  | Except.ok wallets =>
    Except.ok ⟨chainKeys.flatMap (fun c => processChainRequests c (wallets c)), none⟩

/-- Observation helper: whether `pat` occurs as a contiguous run inside
`l`. Used to state what a log or error message does and does not contain. -/
def occursIn (pat : List Char) : List Char → Bool
  | [] => pat.isEmpty
  | c :: rest => pat.isPrefixOf (c :: rest) || occursIn pat rest

/-! ## Theorems about the attestation poller -/

/-- Claim C1, evidence of the code bug at the failing input: on a
successful response whose body is status "complete" with the attestation
field still holding the pending sentinel "PENDING", the poll attempt
returns the payload as ready on that very attempt, instead of continuing as
the claim requires. The `status === "complete"` branch of `pollAttestation`
returns whenever `attestation` is truthy, and the sentinel string is
truthy. -/
theorem pollAttempt_returns_pending_sentinel_when_complete :
    attemptReturns (FetchResult.ok ⟨some "complete", some "PENDING"⟩) =
      some ⟨some "complete", some "PENDING"⟩ := by decide

/-- Claim C2, counterexample: the sentinel comparison is not
case-insensitive. A successful response whose attestation field is
"Pending" — a casing of "pending", as `String.toLower` confirms — is
returned as ready on that attempt, although the claim requires polling to
continue on every casing of "pending". -/
theorem pollAttempt_mixed_case_pending_returns :
    attemptReturns (FetchResult.ok ⟨none, some "Pending"⟩) =
      some ⟨none, some "Pending"⟩ ∧
    "Pending".data.map Char.toLower = "pending".data := by decide

/-- Claim C2, amended: for a successful response carrying an attestation
field, the attempt returns that very response iff the field value is
JS-truthy (non-empty) and either differs from both exact literals "PENDING"
and "pending", or the status field is "complete". The comparison is exact,
not case-insensitive, and when status is "complete" even the exact
sentinels are returned. -/
theorem pollAttempt_ready_iff (st : Option String) (a : String) :
    (∀ r, attemptReturns (FetchResult.ok ⟨st, some a⟩) = some r → r = ⟨st, some a⟩) ∧
    (attemptReturns (FetchResult.ok ⟨st, some a⟩) = some ⟨st, some a⟩ ↔
      (a ≠ "" ∧ ((a ≠ "PENDING" ∧ a ≠ "pending") ∨ st = some "complete"))) := by
  have hj : (jsTruthy (some a) = true) ↔ a ≠ "" := by
    simp [jsTruthy]
  have e : attemptReturns (FetchResult.ok ⟨st, some a⟩) =
      (if jsTruthy (some a) = true ∧ some a ≠ some "PENDING" ∧ some a ≠ some "pending" then
        some (⟨st, some a⟩ : PollResponse)
      else if st = some "pending_confirmations" then none
      else if st = some "complete" then
        (if jsTruthy (some a) = true then some (⟨st, some a⟩ : PollResponse) else none)
      else none) := rfl
  constructor
  · intro r hr
    rw [e] at hr
    split_ifs at hr <;> simp_all
  · rw [e]
    split_ifs with h1 h2 h3 h4 <;> simp_all

/-- Claim C2, witness: a genuine hex payload is neither empty nor a
sentinel, so the amended readiness condition fires and the attempt returns
the response. -/
theorem pollAttempt_ready_iff_witness :
    attemptReturns (FetchResult.ok ⟨none, some "0xdeadbeef"⟩) =
      some ⟨none, some "0xdeadbeef"⟩ :=
  (pollAttempt_ready_iff none "0xdeadbeef").2.mpr (by decide)

/-- Claim C3, counterexample: a run in which the remote always answers
`attestation: "pending"` times out on the attempt whose elapsed time is
183000 ms, i.e. 183 elapsed seconds — yet the digit string "183" does not
occur anywhere in the thrown error message (it is not an infix of its
character list), so the error does not include the elapsed seconds the
claim requires. -/
theorem pollTimeout_message_lacks_elapsed :
    pollAttestationRun "0xabc" (fun _ => FetchResult.ok ⟨none, some "pending"⟩)
      (fun i => 3000 * (i+1)) 61 0 =
      some (PollResult.timeout (timeoutMessage "0xabc")) ∧
    3000 * (60 + 1) = 183000 ∧
    occursIn "183".data (timeoutMessage "0xabc").data = false := by
  refine ⟨by decide, by decide, by decide⟩

/-- Claim C3, amended: `pollAttestation` throws the timeout error only on
an attempt at which the wall-clock elapsed time strictly exceeds the
180000 ms deadline — never earlier — and the thrown message is the fixed
template `timeoutMessage hash`, which contains the identifier and the
guidance that more confirmations may be needed, but no elapsed-seconds
figure. -/
theorem pollTimeout_only_after_deadline (hash : String) (f : Nat → FetchResult)
    (t : Nat → Nat) :
    ∀ (fuel i : Nat) (msg : String),
      pollAttestationRun hash f t fuel i = some (PollResult.timeout msg) →
      msg = timeoutMessage hash ∧ ∃ k, i ≤ k ∧ k < i + fuel ∧ timeoutMs < t k := by
  intro fuel
  induction fuel with
  | zero =>
    intro i msg h
    simp [pollAttestationRun] at h
  | succ n ih =>
    intro i msg h
    simp only [pollAttestationRun] at h
    cases hA : attemptReturns (f i) with
    | some j =>
      rw [hA] at h
      simp at h
    | none =>
      rw [hA] at h
      simp only [] at h
      by_cases ht : timeoutMs < t i
      · rw [if_pos ht] at h
        simp only [Option.some.injEq, PollResult.timeout.injEq] at h
        exact ⟨h.symm, i, le_refl i, by omega, ht⟩
      · rw [if_neg ht] at h
        obtain ⟨hm, k, hk1, hk2, hk3⟩ := ih (i+1) msg h
        exact ⟨hm, k, by omega, by omega, hk3⟩

/-- Claim C3, witness: on the always-pending schedule the amended theorem
applies and yields the attempt index whose elapsed time exceeded the
deadline. -/
theorem pollTimeout_only_after_deadline_witness :
    timeoutMessage "0xfeed" = timeoutMessage "0xfeed" ∧
    ∃ k, 0 ≤ k ∧ k < 0 + 61 ∧ timeoutMs < 3000 * (k+1) :=
  pollTimeout_only_after_deadline "0xfeed"
    (fun _ => FetchResult.ok ⟨none, some "PENDING"⟩)
    (fun i => 3000 * (i+1)) 61 0 (timeoutMessage "0xfeed") (by decide)

/-- Helper: errors and non-ok responses never make an attempt return. -/
theorem attemptReturns_error_none :
    attemptReturns FetchResult.netError = none ∧
    ∀ st, attemptReturns (FetchResult.httpError st) = none :=
  ⟨rfl, fun _ => rfl⟩

/-- Helper: if attempt `k` is the first returning attempt and no earlier
timeout check fires, the loop reaches it and returns its payload. -/
theorem pollRun_first_ready (hash : String) (f : Nat → FetchResult) (t : Nat → Nat) :
    ∀ (fuel i k : Nat) (j : PollResponse), i ≤ k → k < i + fuel →
      attemptReturns (f k) = some j →
      (∀ m, i ≤ m → m < k → attemptReturns (f m) = none ∧ t m ≤ timeoutMs) →
      pollAttestationRun hash f t fuel i = some (PollResult.success j) := by
  intro fuel
  induction fuel with
  | zero => intro i k j h1 h2 _ _; omega
  | succ n ih =>
    intro i k j hik hkf hready hbefore
    simp only [pollAttestationRun]
    rcases Nat.eq_or_lt_of_le hik with heq | hlt
    · subst heq
      simp only [hready]
    · obtain ⟨hnone, hts⟩ := hbefore i (le_refl i) hlt
      simp only [hnone]
      rw [if_neg (by omega : ¬ timeoutMs < t i)]
      exact ih (i+1) k j hlt (by omega) hready (fun m hm1 hm2 => hbefore m (by omega) hm2)

/-- Helper: the loop's behaviour depends on the fetch schedule only through
the per-attempt decision `attemptReturns`; in particular swapping one kind
of transient error for another, or for any number of them, changes
nothing. -/
theorem pollRun_congr (hash : String) (f g : Nat → FetchResult) (t : Nat → Nat)
    (hsched : ∀ n, attemptReturns (f n) = attemptReturns (g n)) :
    ∀ fuel i, pollAttestationRun hash f t fuel i = pollAttestationRun hash g t fuel i := by
  intro fuel
  induction fuel with
  | zero => intro i; rfl
  | succ n ih =>
    intro i
    simp only [pollAttestationRun, hsched i]
    cases hA : attemptReturns (g i) with
    | some j => simp
    | none =>
      simp only []
      by_cases ht : timeoutMs < t i
      · rw [if_pos ht, if_pos ht]
      · rw [if_neg ht, if_neg ht]
        exact ih (i+1)

/-- Claim C4: transient failures never end the poll early. If attempt `k`
is the first attempt whose response is terminal-ready, then no matter how
many network errors, non-ok responses or malformed bodies fill the earlier
attempts — all of which decide to `none` — the loop, with the deadline not
yet elapsed at those attempts, returns exactly attempt `k`'s payload; and
the whole run is invariant under replacing the schedule by any other
schedule with the same per-attempt decisions, so the outcome never depends
on the number or kind of errors. -/
theorem poll_transient_errors_tolerated (hash : String) (f g : Nat → FetchResult)
    (t : Nat → Nat) (k fuel : Nat) (j : PollResponse)
    (hsched : ∀ n, attemptReturns (f n) = attemptReturns (g n))
    (hready : attemptReturns (f k) = some j)
    (hbefore : ∀ m, m < k → attemptReturns (f m) = none ∧ t m ≤ timeoutMs)
    (hfuel : k < fuel) :
    pollAttestationRun hash f t fuel 0 = some (PollResult.success j) ∧
    (∀ fu i, pollAttestationRun hash f t fu i = pollAttestationRun hash g t fu i) :=
  ⟨pollRun_first_ready hash f t fuel 0 k j (Nat.zero_le k) (by omega) hready
      (fun m _ hm2 => hbefore m hm2),
    fun fu i => pollRun_congr hash f g t hsched fu i⟩

/-- Claim C4, witness: attempts 0 and 1 fail with a network error and an
HTTP 500, the ready payload arrives on attempt 2 and is returned; swapping
the two error kinds (HTTP 404 first, network error second) leaves the run
unchanged. -/
theorem poll_transient_errors_tolerated_witness :
    pollAttestationRun "0xcafe"
      (fun n => match n with
        | 0 => FetchResult.netError
        | 1 => FetchResult.httpError 500
        | _ => FetchResult.ok ⟨none, some "0xsig"⟩)
      (fun i => 3000 * (i+1)) 3 0 =
      some (PollResult.success ⟨none, some "0xsig"⟩) ∧
    pollAttestationRun "0xcafe"
      (fun n => match n with
        | 0 => FetchResult.netError
        | 1 => FetchResult.httpError 500
        | _ => FetchResult.ok ⟨none, some "0xsig"⟩)
      (fun i => 3000 * (i+1)) 3 0 =
    pollAttestationRun "0xcafe"
      (fun n => match n with
        | 0 => FetchResult.httpError 404
        | 1 => FetchResult.netError
        | _ => FetchResult.ok ⟨none, some "0xsig"⟩)
      (fun i => 3000 * (i+1)) 3 0 := by
  have h := poll_transient_errors_tolerated "0xcafe"
    (fun n => match n with
      | 0 => FetchResult.netError
      | 1 => FetchResult.httpError 500
      | _ => FetchResult.ok ⟨none, some "0xsig"⟩)
    (fun n => match n with
      | 0 => FetchResult.httpError 404
      | 1 => FetchResult.netError
      | _ => FetchResult.ok ⟨none, some "0xsig"⟩)
    (fun i => 3000 * (i+1)) 2 3 ⟨none, some "0xsig"⟩
    (by intro n; rcases n with _ | _ | n <;> rfl)
    (by decide)
    (by intro m hm; interval_cases m <;> exact ⟨by decide, by decide⟩)
    (by omega)
  exact ⟨h.1, h.2 3 0⟩

/-- Helper: an outcome reached with some fuel is preserved by one more unit
of fuel (the loop has already returned or thrown; extra iterations change
nothing). -/
theorem pollRun_mono_succ (hash : String) (f : Nat → FetchResult) (t : Nat → Nat) :
    ∀ (fuel i : Nat) (r : PollResult),
      pollAttestationRun hash f t fuel i = some r →
      pollAttestationRun hash f t (fuel+1) i = some r := by
  intro fuel
  induction fuel with
  | zero => intro i r h; simp [pollAttestationRun] at h
  | succ n ih =>
    intro i r h
    simp only [pollAttestationRun] at h ⊢
    cases hA : attemptReturns (f i) with
    | some j => rw [hA] at h; exact h
    | none =>
      rw [hA] at h
      simp only [] at h ⊢
      by_cases ht : timeoutMs < t i
      · rw [if_pos ht] at h ⊢; exact h
      · rw [if_neg ht] at h ⊢; exact ih (i+1) r h

/-- Helper: an outcome reached with some fuel is reached with any larger
fuel. -/
theorem pollRun_mono (hash : String) (f : Nat → FetchResult) (t : Nat → Nat)
    (m n i : Nat) (r : PollResult) (hmn : m ≤ n)
    (h : pollAttestationRun hash f t m i = some r) :
    pollAttestationRun hash f t n i = some r := by
  induction hmn with
  | refl => exact h
  | step _ ih => exact pollRun_mono_succ hash f t _ i r ih

/-- Helper: once some attempt's timeout check lies past the deadline, the
loop has produced an outcome by then. -/
theorem pollRun_total (hash : String) (f : Nat → FetchResult) (t : Nat → Nat) :
    ∀ (fuel i : Nat), timeoutMs < t (i + fuel) →
      pollAttestationRun hash f t (fuel+1) i ≠ none := by
  intro fuel
  induction fuel with
  | zero =>
    intro i ht
    simp only [pollAttestationRun]
    cases hA : attemptReturns (f i) with
    | some j => simp
    | none =>
      simp only []
      rw [if_pos (by simpa using ht)]
      simp
  | succ n ih =>
    intro i ht
    simp only [pollAttestationRun]
    cases hA : attemptReturns (f i) with
    | some j => simp
    | none =>
      simp only []
      by_cases hti : timeoutMs < t i
      · rw [if_pos hti]; simp
      · rw [if_neg hti]
        exact ih (i+1) (by rw [show i + 1 + n = i + (n+1) by omega]; exact ht)

/-- Claim C9: whenever wall-clock time strictly advances from each attempt
to the next, a `pollAttestation` invocation has exactly one outcome: some
fuel suffices for the loop to return a success payload or throw the
timeout error, and every outcome observed at any fuel is that same one —
never a second, different outcome. -/
theorem pollAttestation_one_outcome (hash : String) (f : Nat → FetchResult)
    (t : Nat → Nat) (hmono : ∀ i, t i < t (i+1)) :
    ∃ r, (∃ fuel, pollAttestationRun hash f t fuel 0 = some r) ∧
      ∀ fuel' r', pollAttestationRun hash f t fuel' 0 = some r' → r' = r := by
  have hgrow : ∀ k, t 0 + k ≤ t k := by
    intro k
    induction k with
    | zero => simp
    | succ n ihn => have := hmono n; omega
  have hdead : timeoutMs < t (0 + (timeoutMs + 1)) := by
    have := hgrow (timeoutMs + 1)
    simp only [Nat.zero_add]
    omega
  have hne := pollRun_total hash f t (timeoutMs + 1) 0 hdead
  obtain ⟨r, hr⟩ : ∃ r, pollAttestationRun hash f t (timeoutMs + 1 + 1) 0 = some r := by
    cases hh : pollAttestationRun hash f t (timeoutMs + 1 + 1) 0 with
    | none => exact absurd hh hne
    | some r => exact ⟨r, rfl⟩
  refine ⟨r, ⟨timeoutMs + 1 + 1, hr⟩, ?_⟩
  intro fuel' r' hr'
  rcases Nat.le_total fuel' (timeoutMs + 1 + 1) with hle | hle
  · have h2 := pollRun_mono hash f t fuel' (timeoutMs + 1 + 1) 0 r' hle hr'
    rw [hr] at h2
    exact (Option.some_inj.mp h2).symm
  · have h2 := pollRun_mono hash f t (timeoutMs + 1 + 1) fuel' 0 r hle hr
    rw [hr'] at h2
    exact Option.some_inj.mp h2

/-- Claim C9, witness: with the remote permanently unreachable and the
clock advancing 3000 ms per attempt, the outcome is unique across fuels:
running the loop for 61 attempts and for 100 attempts gives the same
result. -/
theorem pollAttestation_one_outcome_witness :
    pollAttestationRun "0xwit" (fun _ => FetchResult.netError)
      (fun i => 3000 * (i+1)) 61 0 =
    pollAttestationRun "0xwit" (fun _ => FetchResult.netError)
      (fun i => 3000 * (i+1)) 100 0 := by
  obtain ⟨r, -, huniq⟩ := pollAttestation_one_outcome "0xwit"
    (fun _ => FetchResult.netError) (fun i => 3000 * (i+1))
    (by intro i; show 3000 * (i+1) < 3000 * (i+1+1); omega)
  have h61 : pollAttestationRun "0xwit" (fun _ => FetchResult.netError)
      (fun i => 3000 * (i+1)) 61 0 =
      some (PollResult.timeout (timeoutMessage "0xwit")) := by decide
  have h100 : pollAttestationRun "0xwit" (fun _ => FetchResult.netError)
      (fun i => 3000 * (i+1)) 100 0 =
      some (PollResult.timeout (timeoutMessage "0xwit")) := by decide
  rw [h61, h100]

/-! ## Theorems about the faucet claim dispatcher -/

/-- Helper: counting the elements satisfying a predicate and those failing
it exhausts the list. -/
theorem countP_split {α : Type} (p : α → Bool) (l : List α) :
    l.countP p + l.countP (fun a => !(p a)) = l.length := by
  induction l with
  | nil => rfl
  | cons x xs ih =>
    simp only [List.countP_cons, List.length_cons]
    cases h : p x <;> simp [h] <;> omega

/-- Helper: flat-mapping a one-element producer is mapping. -/
theorem flatMap_singleton_eq_map {α β : Type} (g : α → β) (l : List α) :
    (l.flatMap (fun a => [g a])) = l.map g := by
  induction l with
  | nil => rfl
  | cons x xs ih => simp [List.flatMap_cons, ih]

/-- Claim C5, counterexample: in src/faucet-automation.js a wallet-loading
exception is caught by `runFaucet` itself — the function resolves normally
(`Except.ok`), with zero requests issued and only a fatal-error log —
instead of the exception being surfaced to the top-level caller as the
claim requires. -/
theorem runFaucetA_swallows_load_error :
    runFaucetA (fun _ _ => FaucetFetchResult.response true none none)
      (Except.error "corrupt wallets.json") =
      Except.ok ⟨[], some "corrupt wallets.json"⟩ := rfl

/-- Claim C5, amended: a wallet-loading exception aborts the run before any
claim is attempted in both variants; the src/unnamed/part_000 variant
surfaces it to the process boundary via exit code 1, while the
src/faucet-automation.js variant catches it at run level, logs it, and
resolves normally without propagating it to its caller. In neither variant
is it swallowed per-wallet. -/
theorem walletLoad_failure_behavior (fr : String → Nat → FaucetFetchResult) (m : String) :
    runFaucet_part000 fr (Except.error m) = RunResult.exited 1 m ∧
    runFaucetRequests_part000 (Except.error m) = [] ∧
    runFaucetA fr (Except.error m) = Except.ok ⟨[], some m⟩ :=
  ⟨rfl, rfl, rfl⟩

/-- Claim C6, evidence at the failing input: `processChain` on an empty
wallet list returns early, producing no summary at all (`none`, the JS
`undefined`) rather than the {0 successes, 0 failures} summary the claim
requires — and in the src/unnamed/part_000 run that very `undefined`
return makes the final-summary loop call `.filter` on `undefined`, so a
run whose wallet file maps one chain to an empty list exits with code 1
instead of skipping the chain without error. -/
theorem processChain_empty_skip_consequences :
    processChainSummary (fun _ => FaucetFetchResult.response true none none)
      "avalanche_fuji" (some []) = none ∧
    processChainRequests "avalanche_fuji" (some []) = [] ∧
    runFaucet_part000 (fun _ _ => FaucetFetchResult.response true (some "ok") none)
      (Except.ok (fun c => if c = "avalanche_fuji" then some [] else some ["0xA"])) =
      RunResult.exited 1 filterOnUndefinedTypeError := by
  refine ⟨rfl, rfl, by decide⟩

/-- Claim C7: for a known chain and a non-empty wallet list, `processChain`
issues exactly one claim request per wallet, in list order (the request
list is precisely the wallet list mapped to claim bodies); it records one
outcome per wallet; and its summary counts exactly the successful and the
failed outcomes, which together exhaust the wallets. -/
theorem processChain_per_wallet (fr : Nat → FaucetFetchResult) (chain : String)
    (cfg : ChainConfig) (ws : List String) (hc : CHAINS chain = some cfg)
    (hne : ws ≠ []) :
    processChainRequests chain (some ws) =
      ws.map (fun w => (⟨w, cfg.chainId, cfg.token⟩ : FaucetRequest)) ∧
    (processChainRequests chain (some ws)).length = ws.length ∧
    ∃ rs, processChain fr chain (some ws) = some rs ∧
      rs.length = ws.length ∧
      processChainSummary fr chain (some ws) =
        some (rs.countP (fun p => p.2.success), rs.countP (fun p => !p.2.success)) ∧
      rs.countP (fun p => p.2.success) + rs.countP (fun p => !p.2.success) = ws.length := by
  have hlen : ¬ ws.length = 0 := by
    cases ws with
    | nil => exact absurd rfl hne
    | cons a l => simp
  have hreq : processChainRequests chain (some ws) =
      ws.map (fun w => (⟨w, cfg.chainId, cfg.token⟩ : FaucetRequest)) := by
    simp only [processChainRequests]
    rw [if_neg hlen]
    have hfn : (fun w => claimUSDCRequests chain w) =
        (fun w => [(⟨w, cfg.chainId, cfg.token⟩ : FaucetRequest)]) := by
      funext w
      simp [claimUSDCRequests, hc]
    rw [hfn, flatMap_singleton_eq_map]
  refine ⟨hreq, by rw [hreq]; simp, ?_⟩
  refine ⟨ws.enum.map (fun p => (p.2, claimUSDCOutcome chain p.2 (fr p.1))), ?_, ?_, ?_, ?_⟩
  · simp only [processChain]
    rw [if_neg hlen]
  · simp [List.enum_length]
  · simp only [processChainSummary, processChain]
    rw [if_neg hlen]
    rfl
  · have h := countP_split (fun (p : String × ClaimOutcome) => p.2.success)
      (ws.enum.map (fun p => (p.2, claimUSDCOutcome chain p.2 (fr p.1))))
    simp only [List.length_map, List.enum_length] at h
    exact h

/-- Claim C7, witness: three wallets on Avalanche Fuji where the second
claim is rejected — exactly three requests, in list order, and the summary
is 2 successes, 1 failure. -/
theorem processChain_per_wallet_witness :
    processChainRequests "avalanche_fuji" (some ["0xW1", "0xW2", "0xW3"]) =
      ["0xW1", "0xW2", "0xW3"].map
        (fun w => (⟨w, "43113", "USDC"⟩ : FaucetRequest)) ∧
    processChainSummary
      (fun n => if n = 1 then FaucetFetchResult.response false none (some "rate limited")
        else FaucetFetchResult.response true (some "ok") none)
      "avalanche_fuji" (some ["0xW1", "0xW2", "0xW3"]) = some (2, 1) := by
  refine ⟨(processChain_per_wallet
      (fun n => if n = 1 then FaucetFetchResult.response false none (some "rate limited")
        else FaucetFetchResult.response true (some "ok") none)
      "avalanche_fuji" ⟨"Avalanche Fuji Testnet", "43113", "USDC"⟩
      ["0xW1", "0xW2", "0xW3"] rfl (by simp)).1, by decide⟩

/-- Claim C8: with a known chain profile, one `claimUSDC` invocation issues
exactly one outbound POST — the single body built from the address and the
profile, with no retry; a network error or a faucet rejection is recorded
as a failed outcome of that one attempt; and `processChain` still records
one outcome per wallet whatever the outcomes are, so a failure aborts
nothing. -/
theorem claimUSDC_one_request_no_retry (chain addr : String) (cfg : ChainConfig)
    (fs : Nat → FaucetFetchResult) (ws : List String)
    (hc : CHAINS chain = some cfg) :
    claimUSDCRequests chain addr = [⟨addr, cfg.chainId, cfg.token⟩] ∧
    (∀ m, claimUSDCOutcome chain addr (FaucetFetchResult.netError m) =
      ⟨false, none, some m⟩) ∧
    (∀ msg err, claimUSDCOutcome chain addr (FaucetFetchResult.response false msg err) =
      ⟨false, none, err⟩) ∧
    (ws ≠ [] → ∃ rs, processChain fs chain (some ws) = some rs ∧
      rs.length = ws.length) := by
  refine ⟨by simp [claimUSDCRequests, hc], ?_, ?_, ?_⟩
  · intro m
    simp [claimUSDCOutcome, claimUSDC, claimUSDCCatch, claimUSDCBody, hc]
  · intro msg err
    simp [claimUSDCOutcome, claimUSDC, claimUSDCCatch, claimUSDCBody, hc]
  · intro hne
    have hlen : ¬ ws.length = 0 := by
      cases ws with
      | nil => exact absurd rfl hne
      | cons a l => simp
    refine ⟨ws.enum.map (fun p => (p.2, claimUSDCOutcome chain p.2 (fs p.1))), ?_, ?_⟩
    · simp only [processChain]
      rw [if_neg hlen]
    · simp [List.enum_length]

/-- Claim C8, witness: one request for one wallet on Base Sepolia; a
network error and a rejection are both recorded as failed outcomes; with
two wallets whose claims both fail, both are still processed. -/
theorem claimUSDC_one_request_no_retry_witness :
    claimUSDCRequests "base_sepolia" "0xA" = [⟨"0xA", "84532", "USDC"⟩] ∧
    claimUSDCOutcome "base_sepolia" "0xA" (FaucetFetchResult.netError "ECONNRESET") =
      ⟨false, none, some "ECONNRESET"⟩ ∧
    claimUSDCOutcome "base_sepolia" "0xA"
      (FaucetFetchResult.response false none (some "denied")) =
      ⟨false, none, some "denied"⟩ ∧
    ∃ rs, processChain (fun _ => FaucetFetchResult.netError "ECONNRESET")
      "base_sepolia" (some ["0xA", "0xB"]) = some rs ∧ rs.length = 2 := by
  have h := claimUSDC_one_request_no_retry "base_sepolia" "0xA"
    ⟨"Base Sepolia Testnet", "84532", "USDC"⟩
    (fun _ => FaucetFetchResult.netError "ECONNRESET") ["0xA", "0xB"] rfl
  exact ⟨h.1, h.2.1 "ECONNRESET", h.2.2.1 none (some "denied"), h.2.2.2 (by simp)⟩

/-- Claim C10, counterexample: for the unconfigured chain key
"solana_devnet", `claimUSDC` does not resolve with a failure outcome — it
rejects. The try block's `chainConfig.name` dereference throws and that
TypeError is caught, but the catch block's own log template dereferences
`chainConfig.name` again, so a second TypeError escapes the function:
`claimUSDC` is not total at its public interface. -/
theorem claimUSDC_unknown_chain_rejects :
    claimUSDC "solana_devnet" "0xA" (FaucetFetchResult.response true none none) =
      Except.error chainLookupTypeError := rfl

/-- Claim C10, amended: `claimUSDC` is total only over configured chain
keys: there every call resolves with an outcome object — the try block's
value, or, when the try block throws (network error, malformed body), the
catch's `{success: false, error: message}` failure outcome. For a chain key
that is not among the three configured chains the call instead rejects:
the TypeError raised inside the catch block itself escapes the function. -/
theorem claimUSDC_total_when_configured (chain addr : String) (cfg : ChainConfig)
    (fr : FaucetFetchResult) (hc : CHAINS chain = some cfg) :
    claimUSDC chain addr fr = Except.ok (claimUSDCOutcome chain addr fr) ∧
    (∀ m, claimUSDCBody chain addr fr = Except.error m →
      claimUSDC chain addr fr = Except.ok ⟨false, none, some m⟩) ∧
    (∀ c, CHAINS c = none → ∀ fr2,
      claimUSDC c addr fr2 = Except.error chainLookupTypeError) := by
  refine ⟨?_, ?_, ?_⟩
  · cases hB : claimUSDCBody chain addr fr with
    | ok o => simp [claimUSDC, claimUSDCOutcome, hB]
    | error m => simp [claimUSDC, claimUSDCOutcome, claimUSDCCatch, hB, hc]
  · intro m hm
    simp [claimUSDC, claimUSDCCatch, hm, hc]
  · intro c hcn fr2
    have hB : claimUSDCBody c addr fr2 = Except.error chainLookupTypeError := by
      simp [claimUSDCBody, hcn]
    simp [claimUSDC, claimUSDCCatch, hB, hcn]

/-- Claim C10, witness: on the configured chain "ethereum_sepolia" a
network failure resolves to the recorded failure outcome, while the
unconfigured "fantom_testnet" rejects with the escaped TypeError. -/
theorem claimUSDC_total_when_configured_witness :
    claimUSDC "ethereum_sepolia" "0xB" (FaucetFetchResult.netError "ETIMEDOUT") =
      Except.ok ⟨false, none, some "ETIMEDOUT"⟩ ∧
    claimUSDC "fantom_testnet" "0xB" (FaucetFetchResult.response true none none) =
      Except.error chainLookupTypeError := by
  have h := claimUSDC_total_when_configured "ethereum_sepolia" "0xB"
    ⟨"Ethereum Sepolia Testnet", "11155111", "USDC"⟩
    (FaucetFetchResult.netError "ETIMEDOUT") rfl
  exact ⟨h.2.1 "ETIMEDOUT" rfl,
    h.2.2 "fantom_testnet" (by decide) (FaucetFetchResult.response true none none)⟩

end UsdcTransfer
